import Mathlib

/-!
Shallow embedding of the `connect-rs` message-framing crate.

Bytes are modelled as `Nat` (well-formedness `< 256` is stated where it
matters).  `Vec<u8>` becomes `List Nat`.  Fallible Rust functions return
`Except DatagramError _`.  The source files embedded here are
`src/protocol.rs`, `src/reader.rs`, `src/writer.rs` and `src/lib.rs`.
-/

/-- Big-endian bytes of a `u16` (`u16::to_be_bytes`). -/
def u16be (n : Nat) : List Nat := [n / 256 % 256, n % 256]

/-- Big-endian bytes of a `u32` (`u32::to_be_bytes`). -/
def u32be (n : Nat) : List Nat :=
  [n / 16777216 % 256, n / 65536 % 256, n / 256 % 256, n % 256]

/-- `u16::from_be_bytes` on a two-byte buffer. -/
def fromBE16 (l : List Nat) : Nat := 256 * l.getD 0 0 + l.getD 1 0

/-- `u32::from_be_bytes` on a four-byte buffer. -/
def fromBE32 (l : List Nat) : Nat :=
  16777216 * l.getD 0 0 + 65536 * l.getD 1 0 + 256 * l.getD 2 0 + l.getD 3 0

/-- Concatenation of a list of byte buffers. -/
def flat : List (List Nat) → List Nat
  | [] => []
  | l :: ls => l ++ flat ls

/-- `protocol.rs`: `const VERSION: u16 = 1`. -/
def VERSION : Nat := 1

/-- `protocol.rs`: `SIZE_PREFIX_BYTE_SIZE = 4` (the leading size field). -/
def SIZE_FIELD_BYTE_SIZE : Nat := 4

/-- `protocol.rs`: `VERSION_BYTE_SIZE = 2`. -/
def VERSION_BYTE_SIZE : Nat := 2

/-- `protocol.rs`: `TAG_BYTE_SIZE = 2`. -/
def TAG_BYTE_SIZE : Nat := 2

/-- `protocol.rs`: `DATAGRAM_HEADER_BYTE_SIZE = 4 + 2 + 2 = 8`. -/
def DATAGRAM_HEADER_BYTE_SIZE : Nat :=
  SIZE_FIELD_BYTE_SIZE + VERSION_BYTE_SIZE + TAG_BYTE_SIZE

/-- `protocol.rs`: `enum DatagramError`.  `BytesParseFail` wraps a slice
conversion error; the wrapped value is irrelevant to the claims. -/
inductive DatagramError where
  | EmptyMessage
  | TooLargeMessage
  | InsufficientBytes
  | BytesParseFail
deriving DecidableEq

/-- `protocol.rs`: `struct ConnectDatagram { buffer: Vec<u8> }` — the datagram
IS its serialized buffer (size field, version, tag, payload). -/
structure ConnectDatagram where
  buffer : List Nat
deriving DecidableEq

/-- `protocol.rs` `ConnectDatagram::with_tag`: header = 4-byte big-endian size
field (`4 + data.len()`), 2-byte version, 2-byte tag, then the payload. -/
def ConnectDatagram.with_tag (tag : Nat) (data : List Nat) :
    Except DatagramError ConnectDatagram :=
  if data.length > 100000000 then .error .TooLargeMessage
  else if data.length > 0 then
    .ok ⟨u32be (DATAGRAM_HEADER_BYTE_SIZE - SIZE_FIELD_BYTE_SIZE + data.length)
           ++ u16be VERSION ++ u16be tag ++ data⟩
  else .error .EmptyMessage

/-- `protocol.rs` `ConnectDatagram::new`: `with_tag(0, data)`. -/
def ConnectDatagram.new (data : List Nat) : Except DatagramError ConnectDatagram :=
  ConnectDatagram.with_tag 0 data

/-- `protocol.rs` `ConnectDatagram::data_size`: `buffer.len() - 8`. -/
def ConnectDatagram.data_size (d : ConnectDatagram) : Nat :=
  d.buffer.length - DATAGRAM_HEADER_BYTE_SIZE

/-- `protocol.rs` `ConnectDatagram::serialized_size`: `buffer.len()`. -/
def ConnectDatagram.serialized_size (d : ConnectDatagram) : Nat :=
  d.buffer.length

/-- `protocol.rs` `ConnectDatagram::update_size_prefix`, modelled here as
`update_size_field`: `self.buffer.splice(..VERSION_BYTE_SIZE, be32(4 + data_size))`.
Note the source splices the four new bytes over only the FIRST TWO bytes
(`..VERSION_BYTE_SIZE`), not over the whole 4-byte size field. -/
def ConnectDatagram.update_size_field (d : ConnectDatagram) : ConnectDatagram :=
  ⟨u32be (DATAGRAM_HEADER_BYTE_SIZE - SIZE_FIELD_BYTE_SIZE + d.data_size)
     ++ d.buffer.drop VERSION_BYTE_SIZE⟩

/-- `protocol.rs` `ConnectDatagram::version`: big-endian `u16` at bytes 4..6. -/
def ConnectDatagram.version (d : ConnectDatagram) : Nat :=
  fromBE16 ((d.buffer.drop SIZE_FIELD_BYTE_SIZE).take VERSION_BYTE_SIZE)

/-- `protocol.rs` `ConnectDatagram::tag`: big-endian `u16` at bytes 6..8. -/
def ConnectDatagram.tag (d : ConnectDatagram) : Nat :=
  fromBE16 ((d.buffer.drop (SIZE_FIELD_BYTE_SIZE + VERSION_BYTE_SIZE)).take TAG_BYTE_SIZE)

/-- `protocol.rs` `ConnectDatagram::set_tag`: `buffer.splice(6..8, tag.to_be_bytes())`. -/
def ConnectDatagram.set_tag (d : ConnectDatagram) (tag : Nat) : ConnectDatagram :=
  ⟨d.buffer.take (SIZE_FIELD_BYTE_SIZE + VERSION_BYTE_SIZE) ++ u16be tag
     ++ d.buffer.drop DATAGRAM_HEADER_BYTE_SIZE⟩

/-- `protocol.rs` `ConnectDatagram::data`: `&buffer[8..]`. -/
def ConnectDatagram.data (d : ConnectDatagram) : List Nat :=
  d.buffer.drop DATAGRAM_HEADER_BYTE_SIZE

/-- `protocol.rs` `ConnectDatagram::set_data`: guard the new payload size, then
`truncate(8 + len)` when `len < buffer.len()`, then `splice(8.., data)`
(returning the spliced-out old bytes), then `update_size_prefix`.  Returns the
old data together with the mutated datagram. -/
def ConnectDatagram.set_data (d : ConnectDatagram) (data : List Nat) :
    Except DatagramError (List Nat × ConnectDatagram) :=
  if data.length > 100000000 then .error .TooLargeMessage
  else if data.length > 0 then
    let b1 := if data.length < d.buffer.length then
        d.buffer.take (DATAGRAM_HEADER_BYTE_SIZE + data.length)
      else d.buffer
    let old := b1.drop DATAGRAM_HEADER_BYTE_SIZE
    let d2 : ConnectDatagram := ⟨b1.take DATAGRAM_HEADER_BYTE_SIZE ++ data⟩
    .ok (old, d2.update_size_field)
  else .error .EmptyMessage

/-- `protocol.rs` `ConnectDatagram::into_bytes` (serialization): the buffer. -/
def ConnectDatagram.into_bytes (d : ConnectDatagram) : List Nat := d.buffer

/-- `protocol.rs` `ConnectDatagram::from_bytes`: accept any buffer strictly
longer than the 8-byte header, verbatim. -/
def ConnectDatagram.from_bytes (buffer : List Nat) :
    Except DatagramError ConnectDatagram :=
  if buffer.length > DATAGRAM_HEADER_BYTE_SIZE then .ok ⟨buffer⟩
  else .error .InsufficientBytes

/-- `protocol.rs` `ConnectDatagram::from_bytes_without_prefix`, modelled here as
`from_bytes_without_size`: require more than `8 - 4 = 4` bytes, then prepend the
big-endian byte length as the reconstructed size field. -/
def ConnectDatagram.from_bytes_without_size (buffer : List Nat) :
    Except DatagramError ConnectDatagram :=
  if buffer.length > DATAGRAM_HEADER_BYTE_SIZE - SIZE_FIELD_BYTE_SIZE then
    .ok ⟨u32be buffer.length ++ buffer⟩
  else .error .InsufficientBytes

/-!
Frame Reader (`src/reader.rs`).

`ConnectionReader` holds `pending_read : Option<BytesMut>` and
`pending_datagram : Option<usize>`.  We collapse `pending_read` to a plain
`List Nat` (`None` and `Some(empty)` are interchangeable in the source: taking
`None` constructs a fresh empty buffer, and the `unreachable!()` arm pairing
`pending_datagram = Some _` with `pending_read = None` is never hit from a
reachable state).  The reusable scratch read buffer (`self.buffer`) is omitted:
its contents are fully overwritten by every read and never observable.

`poll_next` is decomposed the way the source loop runs under a consumer that
keeps polling:
* `extractNext` is the loop head (lines 95-150): if a frame size is known and
  enough bytes are pending, split off the frame, deserialize it with
  `from_bytes_without_prefix`, and — only when at least
  `DATAGRAM_HEADER_BYTE_SIZE = 8` bytes remain — eagerly parse the next 4-byte
  size field out of the remainder.
* `drain` iterates `extractNext` to exhaustion (each `poll_next` call yields one
  datagram, and the loop head runs again before any further read).  Fuel makes
  the recursion structural; every productive step consumes pending bytes, so
  `pending.length + 1` fuel is always enough (the source would panic via
  `expect` on a 0-sized junk frame before looping).
* `feedChunk` is the successful-read arm (lines 165-213): append the fresh
  bytes, parse a size field if none is known and at least 4 bytes are pending,
  then drain.
-/

/-- One loop-head extraction step of `ConnectionReader::poll_next`
(reader.rs lines 95-150).  Returns `none` when the reader must read more bytes
first, otherwise the new pending bytes, new pending size, and the datagram
produced by `from_bytes_without_prefix` on the split-off frame body. -/
def extractNext (p : List Nat) (ps : Option Nat) :
    Option (List Nat × Option Nat × Except DatagramError ConnectDatagram) :=
  match ps with
  | none => none
  | some size =>
    if size ≤ p.length then
      let dataBuf := p.take size
      let rest := p.drop size
      if DATAGRAM_HEADER_BYTE_SIZE ≤ rest.length then
        some (rest.drop SIZE_FIELD_BYTE_SIZE,
              some (fromBE32 (rest.take SIZE_FIELD_BYTE_SIZE)),
              ConnectDatagram.from_bytes_without_size dataBuf)
      else
        some (rest, none, ConnectDatagram.from_bytes_without_size dataBuf)
    else none

/-- Iterate `extractNext` until the reader is stuck (must read again). -/
def drain (fuel : Nat) (p : List Nat) (ps : Option Nat) :
    List Nat × Option Nat × List (Except DatagramError ConnectDatagram) :=
  match fuel with
  | 0 => (p, ps, [])
  | fuel + 1 =>
    match extractNext p ps with
    | none => (p, ps, [])
    | some (p1, ps1, out) =>
      let r := drain fuel p1 ps1
      (r.1, r.2.1, out :: r.2.2)

/-- The successful-read arm of `poll_next` (reader.rs lines 165-213) followed by
the loop (drained by the polling consumer): append the chunk to the pending
bytes, parse the 4-byte size field when no frame size is known yet and at least
`SIZE_PREFIX_BYTE_SIZE = 4` bytes are pending, then extract every complete
datagram. -/
def feedChunk (p : List Nat) (ps : Option Nat) (chunk : List Nat) :
    List Nat × Option Nat × List (Except DatagramError ConnectDatagram) :=
  let pb := p ++ chunk
  if ps = none ∧ SIZE_FIELD_BYTE_SIZE ≤ pb.length then
    drain (pb.length + 1) (pb.drop SIZE_FIELD_BYTE_SIZE)
      (some (fromBE32 (pb.take SIZE_FIELD_BYTE_SIZE)))
  else
    drain (pb.length + 1) pb ps

/-- Socket addresses are opaque to the framing logic; model them as `Nat`. -/
abbrev SocketAddr := Nat

/-- Observable state of `ConnectionReader` (reader.rs lines 34-42). -/
structure RState where
  local_addr : SocketAddr
  peer_addr : SocketAddr
  pending : List Nat
  psize : Option Nat
  closed : Bool
deriving DecidableEq

/-- `ConnectionReader::close_stream` (reader.rs lines 81-87): release the
buffers (scratch, pending size, pending bytes) and set the closed flag. -/
def closeStream (st : RState) : RState :=
  { st with pending := [], psize := none, closed := true }

/-- Responses of the underlying `AsyncRead` when the reader polls it: a
successful read of `bytes` (`bytes_read > 0`), a zero-byte read (EOF), a fatal
read error, or would-block. -/
inductive ReadEvent where
  | chunk : List Nat → ReadEvent
  | eof : ReadEvent
  | rerr : ReadEvent
  | block : ReadEvent

/-- One underlying-read outcome of `poll_next`, as observed by a consumer that
polls until stuck.  Returns the new state, the datagrams yielded, and whether
the stream yielded end-of-sequence (`Poll::Ready(None)`).  Mirrors reader.rs
lines 164-229: a positive read feeds the chunk; a zero-byte read or a read
error closes the stream and ends the sequence (the error is not surfaced);
would-block leaves the state unchanged. -/
def readStep (st : RState) :
    ReadEvent → RState × List (Except DatagramError ConnectDatagram) × Bool
  | .chunk bytes =>
    let r := feedChunk st.pending st.psize bytes
    ({ st with pending := r.1, psize := r.2.1 }, r.2.2, false)
  | .eof => (closeStream st, [], true)
  | .rerr => (closeStream st, [], true)
  | .block => (st, [], false)

/-- Run the reader over a sequence of underlying-read outcomes, collecting every
yielded datagram, stopping at end-of-sequence. -/
def runReader (st : RState) :
    List ReadEvent → RState × List (Except DatagramError ConnectDatagram)
  | [] => (st, [])
  | e :: es =>
    match readStep st e with
    | (st1, outs, true) => (st1, outs)
    | (st1, outs, false) =>
      let r := runReader st1 es
      (r.1, outs ++ r.2)

/-- A fresh `ConnectionReader` (reader.rs `new`): no pending bytes, no pending
frame size, not closed. -/
def initReader (la pa : SocketAddr) : RState :=
  { local_addr := la, peer_addr := pa, pending := [], psize := none, closed := false }

/-!
Frame Writer (`src/writer.rs`).

`ConnectionWriter` implements `Sink`: `poll_ready`, `start_send`, `poll_flush`,
`poll_close`.  The transport's responses (`poll_flush`, `poll_write_vectored`,
`poll_close` on the underlying `AsyncWrite`) are passed in explicitly.
`start_send`'s protobuf serialization (`ConnectionMessage::from_msg(item)
.write_to_bytes()`) is abstracted as its result: `some buffer` or `none`.
-/

/-- `futures::task::Poll`. -/
inductive Poll (α : Type) where
  | ready : α → Poll α
  | pending : Poll α
deriving DecidableEq

/-- `async_channel::RecvError`, the writer's `Sink::Error` type. -/
inductive RecvError where
  | mk
deriving DecidableEq

/-- Observable state of `ConnectionWriter` (writer.rs lines 29-35). -/
structure ConnectionWriter where
  local_addr : SocketAddr
  peer_addr : SocketAddr
  pending_writes : List (List Nat)
  closed : Bool
deriving DecidableEq

/-- `Sink::poll_ready` (writer.rs lines 73-81): error exactly when closed. -/
def ConnectionWriter.poll_ready (w : ConnectionWriter) :
    Poll (Except RecvError Unit) :=
  if w.closed then .ready (.error .mk) else .ready (.ok ())

/-- `Sink::start_send` (writer.rs lines 83-98): serialize the item and push the
buffer onto `pending_writes`; error only when serialization fails.  There is no
closed check. -/
def ConnectionWriter.start_send (w : ConnectionWriter) (ser : Option (List Nat)) :
    ConnectionWriter × Except RecvError Unit :=
  match ser with
  | some buffer => ({ w with pending_writes := w.pending_writes ++ [buffer] }, .ok ())
  | none => (w, .error .mk)

/-- `Sink::poll_flush` (writer.rs lines 100-138).  With a non-empty queue the
transport is first flushed; on its `Ready(Ok)`, `split_off(0)` MOVES every
queued buffer out of `pending_writes` (leaving it empty) and only then is the
vectored write polled.  Besides the new state and the returned poll, the third
component records the buffers handed to `poll_write_vectored`, when it was
reached. -/
def ConnectionWriter.poll_flush (w : ConnectionWriter)
    (flushRes : Poll (Except Unit Unit)) (writeRes : Poll (Except Unit Nat)) :
    ConnectionWriter × Poll (Except RecvError Unit) × List (List Nat) :=
  if w.pending_writes.length > 0 then
    match flushRes with
    | .pending => (w, .pending, [])
    | .ready (.error _) => (w, .ready (.error .mk), [])
    | .ready (.ok _) =>
      let moved := w.pending_writes
      let w1 := { w with pending_writes := [] }
      match writeRes with
      | .pending => (w1, .pending, moved)
      | .ready (.ok _) => (w1, .ready (.ok ()), moved)
      | .ready (.error _) => (w1, .ready (.error .mk), moved)
  else (w, .ready (.ok ()), [])

/-- `Sink::poll_close` (writer.rs lines 140-198): set `closed`, run the flush
body (same shape as `poll_flush`, including the early `split_off(0)`), and on
its success poll the transport's close. -/
def ConnectionWriter.poll_close (w : ConnectionWriter)
    (flushRes : Poll (Except Unit Unit)) (writeRes : Poll (Except Unit Nat))
    (closeRes : Poll (Except Unit Unit)) :
    ConnectionWriter × Poll (Except RecvError Unit) :=
  let w0 := { w with closed := true }
  if w0.pending_writes.length > 0 then
    match flushRes with
    | .pending => (w0, .pending)
    | .ready (.error _) => (w0, .ready (.error .mk))
    | .ready (.ok _) =>
      let w1 := { w0 with pending_writes := [] }
      match writeRes with
      | .pending => (w1, .pending)
      | .ready (.error _) => (w1, .ready (.error .mk))
      | .ready (.ok _) =>
        match closeRes with
        | .pending => (w1, .pending)
        | .ready (.ok _) => (w1, .ready (.ok ()))
        | .ready (.error _) => (w1, .ready (.error .mk))
  else
    match closeRes with
    | .pending => (w0, .pending)
    | .ready (.ok _) => (w0, .ready (.ok ()))
    | .ready (.error _) => (w0, .ready (.error .mk))

/-- `lib.rs`: `struct Connection { reader, writer }`. -/
structure Connection where
  reader : RState
  writer : ConnectionWriter

/-- `Connection::peer_addr` (lib.rs lines 113-115): taken from the reader. -/
def Connection.peer_addr (c : Connection) : SocketAddr := c.reader.peer_addr

/-- `Connection::local_addr` (lib.rs lines 108-110). -/
def Connection.local_addr (c : Connection) : SocketAddr := c.reader.local_addr

/-- `Connection::split` (lib.rs lines 121-123). -/
def Connection.split (c : Connection) : RState × ConnectionWriter :=
  (c.reader, c.writer)

/-- `Connection::close` (lib.rs lines 141-151): read the peer address, split,
then DROP both halves — the `writer.close().await` call is commented out in the
source, so no flush and no transport close happen.  The second component is the
trace of frame buffers transmitted to the transport during close: empty. -/
def Connection.close (c : Connection) : SocketAddr × List (List Nat) :=
  (c.peer_addr, [])

/-!
Derived notions for the reader proofs.
-/

/-- The post-size-field bytes of a datagram's wire form (version, tag, payload):
what the reader accumulates once the 4-byte size field has been consumed. -/
def ConnectDatagram.frame (d : ConnectDatagram) : List Nat :=
  d.buffer.drop 4

/-- The value carried by a datagram's wire size field: everything after it. -/
def ConnectDatagram.fsize (d : ConnectDatagram) : Nat :=
  d.buffer.length - 4

/-- A structurally valid serialized datagram: at least the 8-byte header plus a
nonempty payload, payload within the 100 MB construction bound, and the leading
4 bytes holding the big-endian byte length of the rest.  `with_tag` produces
exactly such buffers. -/
def GoodFrame (d : ConnectDatagram) : Prop :=
  9 ≤ d.buffer.length ∧ d.buffer.length ≤ 100000008 ∧
    d.buffer.take 4 = u32be (d.buffer.length - 4)

instance (d : ConnectDatagram) : Decidable (GoodFrame d) := by
  unfold GoodFrame; infer_instance

/-- The byte stream produced by serializing a sequence of datagrams. -/
def wireOf (ds : List ConnectDatagram) : List Nat :=
  flat (ds.map ConnectDatagram.into_bytes)

/-- Reader states at which `poll_next` has returned to its caller: either no
frame size is parsed and fewer than 8 bytes are pending, or the size of the
head datagram is parsed and its body has not fully arrived.  `F` is the byte
stream the transport has yet to deliver, `rs` the datagrams it still encodes. -/
def StuckInv (rs : List ConnectDatagram) (F p : List Nat) (ps : Option Nat) : Prop :=
  (ps = none ∧ p.length < 8 ∧ p ++ F = wireOf rs) ∨
  (∃ d rs2, rs = d :: rs2 ∧ ps = some d.fsize ∧ p.length < d.fsize ∧
    p ++ F = d.frame ++ wireOf rs2)

/-- Reader states entering the drain loop (just after a read was appended and
the size field, when absent and available, was parsed). -/
def ReadyInv (rs : List ConnectDatagram) (F p : List Nat) (ps : Option Nat) : Prop :=
  (ps = none ∧ p.length < 4 ∧ p ++ F = wireOf rs) ∨
  (∃ d rs2, rs = d :: rs2 ∧ ps = some d.fsize ∧
    p ++ F = d.frame ++ wireOf rs2)

theorem length_u32be (n : Nat) : (u32be n).length = 4 := rfl

theorem length_u16be (n : Nat) : (u16be n).length = 2 := rfl

theorem fromBE32_u32be (n : Nat) (h : n < 4294967296) : fromBE32 (u32be n) = n := by
  simp only [fromBE32, u32be, List.getD_cons_zero, List.getD_cons_succ]
  omega

theorem fromBE16_u16be (n : Nat) (h : n < 65536) : fromBE16 (u16be n) = n := by
  simp only [fromBE16, u16be, List.getD_cons_zero, List.getD_cons_succ]
  omega

theorem flat_nil : flat [] = [] := rfl

theorem flat_cons (l : List Nat) (ls : List (List Nat)) :
    flat (l :: ls) = l ++ flat ls := rfl

theorem wireOf_nil : wireOf [] = [] := rfl

theorem wireOf_cons (d : ConnectDatagram) (ds : List ConnectDatagram) :
    wireOf (d :: ds) = d.buffer ++ wireOf ds := rfl

theorem hdr_eq : DATAGRAM_HEADER_BYTE_SIZE = 8 := rfl

theorem sizeField_eq : SIZE_FIELD_BYTE_SIZE = 4 := rfl

theorem frame_length (d : ConnectDatagram) : d.frame.length = d.buffer.length - 4 := by
  simp [ConnectDatagram.frame]

/-- A structurally valid frame body deserializes (via the reader's
`from_bytes_without_prefix` call) back to the very datagram it came from. -/
theorem gf_decode (d : ConnectDatagram) (h : GoodFrame d) :
    ConnectDatagram.from_bytes_without_size d.frame = .ok d := by
  obtain ⟨h9, hub, htk⟩ := h
  have hgt : d.frame.length > DATAGRAM_HEADER_BYTE_SIZE - SIZE_FIELD_BYTE_SIZE := by
    rw [hdr_eq, sizeField_eq, frame_length]; omega
  unfold ConnectDatagram.from_bytes_without_size
  rw [if_pos hgt]
  have hre : u32be d.frame.length ++ d.frame = d.buffer := by
    rw [frame_length, ← htk]
    simp only [ConnectDatagram.frame]
    exact List.take_append_drop 4 d.buffer
  rw [hre]

theorem with_tag_ok (t : Nat) (data : List Nat) (d : ConnectDatagram)
    (h : ConnectDatagram.with_tag t data = .ok d) :
    d.buffer = u32be (4 + data.length) ++ u16be VERSION ++ u16be t ++ data ∧
      1 ≤ data.length ∧ data.length ≤ 100000000 := by
  unfold ConnectDatagram.with_tag at h
  split_ifs at h with h1 h2
  cases h
  exact ⟨by norm_num [hdr_eq, sizeField_eq], by omega, by omega⟩

/-- Datagrams built by `with_tag` are structurally valid frames. -/
theorem with_tag_good (t : Nat) (data : List Nat) (d : ConnectDatagram)
    (h : ConnectDatagram.with_tag t data = .ok d) : GoodFrame d := by
  obtain ⟨hb, h1, h2⟩ := with_tag_ok t data d h
  have hlen : d.buffer.length = 8 + data.length := by
    simp only [hb, List.length_append, length_u32be, length_u16be]
    try omega
  refine ⟨by omega, by omega, ?_⟩
  have ht : (u32be (4 + data.length) ++ (u16be VERSION ++ u16be t ++ data)).take
      (u32be (4 + data.length)).length = u32be (4 + data.length) :=
    List.take_left _ _
  have harith : d.buffer.length - 4 = 4 + data.length := by omega
  rw [harith, hb]
  simp only [length_u32be, List.append_assoc] at ht ⊢
  exact ht

theorem extractNext_none (p : List Nat) : extractNext p none = none := rfl

theorem extractNext_stuck (p : List Nat) (s : Nat) (h : p.length < s) :
    extractNext p (some s) = none := by
  simp [extractNext, Nat.not_le.mpr h]

theorem extractNext_big (p : List Nat) (s : Nat) (h : s ≤ p.length)
    (h8 : 8 ≤ (p.drop s).length) :
    extractNext p (some s) =
      some ((p.drop s).drop 4, some (fromBE32 ((p.drop s).take 4)),
        ConnectDatagram.from_bytes_without_size (p.take s)) := by
  have h8a : 8 ≤ p.length - s := by simpa using h8
  simp [extractNext, h, hdr_eq, sizeField_eq, h8a]

theorem extractNext_small (p : List Nat) (s : Nat) (h : s ≤ p.length)
    (h8 : (p.drop s).length < 8) :
    extractNext p (some s) =
      some (p.drop s, none, ConnectDatagram.from_bytes_without_size (p.take s)) := by
  have h8a : p.length - s < 8 := by simpa using h8
  simp [extractNext, h, hdr_eq, sizeField_eq, Nat.not_le.mpr h8a]

theorem drain_zero (p : List Nat) (ps : Option Nat) : drain 0 p ps = (p, ps, []) := rfl

theorem drain_none (fuel : Nat) (p : List Nat) : drain fuel p none = (p, none, []) := by
  cases fuel <;> rfl

theorem drain_succ (n : Nat) (p : List Nat) (ps : Option Nat) :
    drain (n + 1) p ps =
      match extractNext p ps with
      | none => (p, ps, [])
      | some (p1, ps1, out) =>
        ((drain n p1 ps1).1, (drain n p1 ps1).2.1, out :: (drain n p1 ps1).2.2) := rfl

theorem drain_step (n : Nat) (p : List Nat) (ps : Option Nat) (p1 : List Nat)
    (ps1 : Option Nat) (out : Except DatagramError ConnectDatagram)
    (h : extractNext p ps = some (p1, ps1, out)) :
    drain (n + 1) p ps =
      ((drain n p1 ps1).1, (drain n p1 ps1).2.1, out :: (drain n p1 ps1).2.2) := by
  conv_lhs => unfold drain
  rw [h]

theorem drain_stop (n : Nat) (p : List Nat) (ps : Option Nat)
    (h : extractNext p ps = none) : drain (n + 1) p ps = (p, ps, []) := by
  conv_lhs => unfold drain
  rw [h]

/-- Draining after a read: starting from a drain-entry state whose pending
bytes, together with the undelivered byte stream `F`, spell out the remaining
datagrams `rs`, the loop yields exactly the datagrams whose bytes have fully
arrived (a front segment of `rs`) and stops in a stuck state encoding the
rest. -/
theorem drain_spec (fuel : Nat) :
    ∀ (rs : List ConnectDatagram) (F p : List Nat) (ps : Option Nat),
      (∀ d ∈ rs, GoodFrame d) → ReadyInv rs F p ps → p.length < fuel →
      ∃ rs1 rs2 p2 ps2, rs = rs1 ++ rs2 ∧
        drain fuel p ps = (p2, ps2, rs1.map Except.ok) ∧ StuckInv rs2 F p2 ps2 := by
  induction fuel with
  | zero =>
    intro rs F p ps _ _ hf
    exact (Nat.not_lt_zero _ hf).elim
  | succ n ih =>
    intro rs F p ps hgood hinv hf
    rcases hinv with ⟨hps, hlen, hcat⟩ | ⟨d, rs2, hrs, hps, hcat⟩
    · subst hps
      refine ⟨[], rs, p, none, (List.nil_append rs).symm, ?_,
        Or.inl ⟨rfl, by omega, hcat⟩⟩
      simp [drain_none]
    · subst hrs
      subst hps
      have hgd : GoodFrame d := hgood d (List.mem_cons_self d rs2)
      have hfr : d.frame.length = d.fsize := by rw [frame_length]; rfl
      have h9 : 9 ≤ d.buffer.length := hgd.1
      have hub : d.buffer.length ≤ 100000008 := hgd.2.1
      have hfs5 : 5 ≤ d.fsize := by unfold ConnectDatagram.fsize; omega
      by_cases hle : d.fsize ≤ p.length
      · have htake : p.take d.fsize = d.frame := by
          have h1 : (p ++ F).take d.fsize = p.take d.fsize :=
            List.take_append_of_le_length hle
          have h2 : (d.frame ++ wireOf rs2).take d.fsize = d.frame := by
            conv_lhs => rw [← hfr]
            exact List.take_left _ _
          rw [hcat, h2] at h1
          exact h1.symm
        have hdrop : p.drop d.fsize ++ F = wireOf rs2 := by
          have h1 : (p ++ F).drop d.fsize = p.drop d.fsize ++ F :=
            List.drop_append_of_le_length hle
          have h2 : (d.frame ++ wireOf rs2).drop d.fsize = wireOf rs2 := by
            conv_lhs => rw [← hfr]
            exact List.drop_left _ _
          rw [hcat, h2] at h1
          exact h1.symm
        have hdec : ConnectDatagram.from_bytes_without_size (p.take d.fsize) = .ok d := by
          rw [htake]
          exact gf_decode d hgd
        by_cases h8 : 8 ≤ (p.drop d.fsize).length
        · cases rs2 with
          | nil =>
            exfalso
            have hnil : p.drop d.fsize ++ F = [] := by rw [hdrop]; rfl
            have h0 := congrArg List.length hnil
            simp only [List.length_append, List.length_nil] at h0
            omega
          | cons d2 rs3 =>
            have hgd2 : GoodFrame d2 := hgood d2 (by simp)
            have h92 : 9 ≤ d2.buffer.length := hgd2.1
            have hub2 : d2.buffer.length ≤ 100000008 := hgd2.2.1
            have hcat2 : p.drop d.fsize ++ F = d2.buffer ++ wireOf rs3 := by
              rw [hdrop, wireOf_cons]
            have htake4 : (p.drop d.fsize).take 4 = u32be d2.fsize := by
              have h1 : (p.drop d.fsize ++ F).take 4 = (p.drop d.fsize).take 4 :=
                List.take_append_of_le_length (by omega)
              have h2 : (d2.buffer ++ wireOf rs3).take 4 = d2.buffer.take 4 :=
                List.take_append_of_le_length (by omega)
              rw [hcat2, h2, hgd2.2.2] at h1
              exact h1.symm
            have hsz : fromBE32 ((p.drop d.fsize).take 4) = d2.fsize := by
              rw [htake4]
              exact fromBE32_u32be _ (by unfold ConnectDatagram.fsize; omega)
            have hdrop4 : (p.drop d.fsize).drop 4 ++ F = d2.frame ++ wireOf rs3 := by
              have h1 : (p.drop d.fsize ++ F).drop 4 = (p.drop d.fsize).drop 4 ++ F :=
                List.drop_append_of_le_length (by omega)
              have h2 : (d2.buffer ++ wireOf rs3).drop 4 = d2.frame ++ wireOf rs3 := by
                rw [List.drop_append_of_le_length (by omega)]
                rfl
              rw [hcat2, h2] at h1
              exact h1.symm
            have hlen4 : ((p.drop d.fsize).drop 4).length < n := by
              simp only [List.length_drop]
              omega
            obtain ⟨rs1, rs2', p2, ps2, hsplit, hdr, hstuck⟩ :=
              ih (d2 :: rs3) F ((p.drop d.fsize).drop 4) (some d2.fsize)
                (fun x hx => hgood x (List.mem_cons_of_mem d hx))
                (Or.inr ⟨d2, rs3, rfl, rfl, hdrop4⟩) hlen4
            refine ⟨d :: rs1, rs2', p2, ps2, by rw [List.cons_append, ← hsplit], ?_, hstuck⟩
            rw [drain_step n p _ _ _ _ (extractNext_big p d.fsize hle h8), hsz, hdr]
            simp [hdec]
        · refine ⟨[d], rs2, p.drop d.fsize, none, rfl, ?_, Or.inl ⟨rfl, by omega, hdrop⟩⟩
          rw [drain_step n p _ _ _ _ (extractNext_small p d.fsize hle (by omega)),
            drain_none]
          simp [hdec]
      · refine ⟨[], d :: rs2, p, some d.fsize, (List.nil_append _).symm, ?_,
          Or.inr ⟨d, rs2, rfl, rfl, by omega, hcat⟩⟩
        rw [drain_stop n p _ (extractNext_stuck p d.fsize (by omega))]
        simp

theorem feedChunk_parse (p c : List Nat) (h4 : 4 ≤ (p ++ c).length) :
    feedChunk p none c =
      drain ((p ++ c).length + 1) ((p ++ c).drop 4)
        (some (fromBE32 ((p ++ c).take 4))) := by
  unfold feedChunk
  rw [if_pos ⟨rfl, by rw [sizeField_eq]; exact h4⟩, sizeField_eq]

theorem feedChunk_noparse (p c : List Nat) (h4 : (p ++ c).length < 4) :
    feedChunk p none c = drain ((p ++ c).length + 1) (p ++ c) none := by
  unfold feedChunk
  rw [if_neg]
  intro hcond
  rw [sizeField_eq] at hcond
  omega

theorem feedChunk_some (p c : List Nat) (s : Nat) :
    feedChunk p (some s) c = drain ((p ++ c).length + 1) (p ++ c) (some s) := by
  unfold feedChunk
  rw [if_neg]
  exact fun hcond => Option.noConfusion hcond.1

/-- Feeding one successfully read chunk to a stuck reader yields the datagrams
that have now fully arrived and leaves the reader stuck on the rest. -/
theorem feed_spec (rs : List ConnectDatagram) (F p c : List Nat) (ps : Option Nat)
    (hgood : ∀ d ∈ rs, GoodFrame d) (hinv : StuckInv rs (c ++ F) p ps) :
    ∃ rs1 rs2, rs = rs1 ++ rs2 ∧
      (feedChunk p ps c).2.2 = rs1.map Except.ok ∧
      StuckInv rs2 F (feedChunk p ps c).1 (feedChunk p ps c).2.1 := by
  rcases hinv with ⟨hps, hlt, hcat⟩ | ⟨d, rs2, hrs, hps, hlt, hcat⟩
  · subst hps
    have hcat2 : (p ++ c) ++ F = wireOf rs := by
      rw [List.append_assoc]
      exact hcat
    by_cases h4 : 4 ≤ (p ++ c).length
    · rw [feedChunk_parse p c h4]
      cases rs with
      | nil =>
        exfalso
        have hl := congrArg List.length hcat2
        simp only [wireOf_nil, List.length_append, List.length_nil] at hl
        simp only [List.length_append] at h4
        omega
      | cons d rs2 =>
        have hgd : GoodFrame d := hgood d (by simp)
        have htake4 : (p ++ c).take 4 = u32be d.fsize := by
          have h1 : ((p ++ c) ++ F).take 4 = (p ++ c).take 4 :=
            List.take_append_of_le_length h4
          have h2 : (d.buffer ++ wireOf rs2).take 4 = d.buffer.take 4 :=
            List.take_append_of_le_length (by have := hgd.1; omega)
          rw [hcat2, wireOf_cons, h2, hgd.2.2] at h1
          exact h1.symm
        have hsz : fromBE32 ((p ++ c).take 4) = d.fsize := by
          rw [htake4]
          refine fromBE32_u32be _ ?_
          have := hgd.2.1
          unfold ConnectDatagram.fsize
          omega
        have hdrop4 : (p ++ c).drop 4 ++ F = d.frame ++ wireOf rs2 := by
          have h1 : ((p ++ c) ++ F).drop 4 = (p ++ c).drop 4 ++ F :=
            List.drop_append_of_le_length h4
          have h2 : (d.buffer ++ wireOf rs2).drop 4 = d.frame ++ wireOf rs2 := by
            rw [List.drop_append_of_le_length (by have := hgd.1; omega)]
            rfl
          rw [hcat2, wireOf_cons, h2] at h1
          exact h1.symm
        have hlen : ((p ++ c).drop 4).length < (p ++ c).length + 1 := by
          simp only [List.length_drop]
          omega
        obtain ⟨rs1, rs2', p2, ps2, hsplit, hdr, hstuck⟩ :=
          drain_spec ((p ++ c).length + 1) (d :: rs2) F ((p ++ c).drop 4)
            (some d.fsize) hgood (Or.inr ⟨d, rs2, rfl, rfl, hdrop4⟩) hlen
        refine ⟨rs1, rs2', hsplit, ?_, ?_⟩
        · rw [hsz, hdr]
        · rw [hsz, hdr]
          exact hstuck
    · rw [feedChunk_noparse p c (by omega), drain_none]
      refine ⟨[], rs, (List.nil_append rs).symm, rfl, Or.inl ⟨rfl, ?_, hcat2⟩⟩
      show (p ++ c).length < 8
      omega
  · subst hrs
    subst hps
    rw [feedChunk_some p c d.fsize]
    have hcat2 : (p ++ c) ++ F = d.frame ++ wireOf rs2 := by
      rw [List.append_assoc]
      exact hcat
    obtain ⟨rs1, rs2', p2, ps2, hsplit, hdr, hstuck⟩ :=
      drain_spec ((p ++ c).length + 1) (d :: rs2) F (p ++ c) (some d.fsize)
        hgood (Or.inr ⟨d, rs2, rfl, rfl, hcat2⟩) (by omega)
    refine ⟨rs1, rs2', hsplit, ?_, ?_⟩
    · rw [hdr]
    · rw [hdr]
      exact hstuck

theorem runReader_chunk (la pa : SocketAddr) (p : List Nat) (ps : Option Nat)
    (cl : Bool) (c : List Nat) (es : List ReadEvent) :
    runReader ⟨la, pa, p, ps, cl⟩ (ReadEvent.chunk c :: es) =
      ((runReader ⟨la, pa, (feedChunk p ps c).1, (feedChunk p ps c).2.1, cl⟩ es).1,
        (feedChunk p ps c).2.2 ++
          (runReader ⟨la, pa, (feedChunk p ps c).1, (feedChunk p ps c).2.1, cl⟩ es).2) := rfl

theorem runReader_eof (st : RState) :
    runReader st [ReadEvent.eof] = (closeStream st, []) := rfl

/-- Running a stuck reader over chunk events followed by EOF yields exactly the
datagrams encoded by the pending bytes and the delivered chunks. -/
theorem run_spec (cs : List (List Nat)) :
    ∀ (rs : List ConnectDatagram) (la pa : SocketAddr) (p : List Nat)
      (ps : Option Nat),
      (∀ d ∈ rs, GoodFrame d) → StuckInv rs (flat cs) p ps →
      (runReader ⟨la, pa, p, ps, false⟩
        (cs.map ReadEvent.chunk ++ [ReadEvent.eof])).2 = rs.map Except.ok := by
  induction cs with
  | nil =>
    intro rs la pa p ps hgood hinv
    have hrs : rs = [] := by
      rcases hinv with ⟨_, hlt, hcat⟩ | ⟨d, rs2, hrs, _, hlt, hcat⟩
      · cases rs with
        | nil => rfl
        | cons d rs2 =>
          exfalso
          have h9 : 9 ≤ d.buffer.length := (hgood d (by simp)).1
          have hl := congrArg List.length hcat
          simp only [flat_nil, List.append_nil, wireOf_cons,
            List.length_append] at hl
          omega
      · exfalso
        have hfr : d.frame.length = d.fsize := by rw [frame_length]; rfl
        have hl := congrArg List.length hcat
        simp only [flat_nil, List.append_nil, List.length_append] at hl
        omega
    subst hrs
    rfl
  | cons c cs ih =>
    intro rs la pa p ps hgood hinv
    rw [flat_cons] at hinv
    obtain ⟨rs1, rs2, hsplit, houts, hstuck⟩ :=
      feed_spec rs (flat cs) p c ps hgood hinv
    subst hsplit
    have hgood2 : ∀ d ∈ rs2, GoodFrame d := fun d hd =>
      hgood d (List.mem_append_right rs1 hd)
    show (runReader ⟨la, pa, p, ps, false⟩
      (ReadEvent.chunk c :: (cs.map ReadEvent.chunk ++ [ReadEvent.eof]))).2 =
      List.map Except.ok (rs1 ++ rs2)
    rw [runReader_chunk]
    show (feedChunk p ps c).2.2 ++ _ = _
    rw [houts,
      ih rs2 la pa (feedChunk p ps c).1 (feedChunk p ps c).2.1 hgood2 hstuck,
      List.map_append]

theorem drop4_u32be (n : Nat) (l : List Nat) : (u32be n ++ l).drop 4 = l := rfl

theorem take4_u32be (n : Nat) (l : List Nat) : (u32be n ++ l).take 4 = u32be n := rfl

theorem drop2_u16be (n : Nat) (l : List Nat) : (u16be n ++ l).drop 2 = l := rfl

theorem take2_u16be (n : Nat) (l : List Nat) : (u16be n ++ l).take 2 = u16be n := rfl

/-- C1: fragmentation invariance of the reader.  For every sequence of valid
datagrams, delivering the concatenation of their serialized bytes to a fresh
`ConnectionReader` as nonempty chunks split at arbitrary byte boundaries
(mid-header and mid-payload included) makes the reader yield exactly those
datagrams, in order, with none dropped or duplicated. -/
theorem C1_reader_fragmentation_invariance
    (ds : List ConnectDatagram) (cs : List (List Nat)) (la pa : SocketAddr)
    (hds : ∀ d ∈ ds, GoodFrame d)
    (_hchunks : ∀ c ∈ cs, c ≠ [])
    (hbytes : flat cs = wireOf ds) :
    (runReader (initReader la pa)
      (cs.map ReadEvent.chunk ++ [ReadEvent.eof])).2 = ds.map Except.ok := by
  have hinv : StuckInv ds (flat cs) [] none :=
    Or.inl ⟨rfl, by simp, by rw [List.nil_append, hbytes]⟩
  exact run_spec cs ds la pa [] none hds hinv

/-- Witness for C1 at a concrete two-datagram wire split mid-size-field,
mid-header, mid-payload and across frame boundaries. -/
theorem C1_witness :
    (runReader (initReader 0 1)
      ([[0, 0], [0, 9, 0, 1, 0], [1, 10, 20, 30, 40, 50, 0, 0, 0, 5, 0],
        [1, 0, 2, 7]].map ReadEvent.chunk ++ [ReadEvent.eof])).2 =
      [ConnectDatagram.mk [0, 0, 0, 9, 0, 1, 0, 1, 10, 20, 30, 40, 50],
        ConnectDatagram.mk [0, 0, 0, 5, 0, 1, 0, 2, 7]].map Except.ok :=
  C1_reader_fragmentation_invariance
    [⟨[0, 0, 0, 9, 0, 1, 0, 1, 10, 20, 30, 40, 50]⟩, ⟨[0, 0, 0, 5, 0, 1, 0, 2, 7]⟩]
    [[0, 0], [0, 9, 0, 1, 0], [1, 10, 20, 30, 40, 50, 0, 0, 0, 5, 0], [1, 0, 2, 7]]
    0 1 (by decide) (by decide) (by decide)

/-- C2: the claimed size-field invariant fails on `set_data`.  Starting from
`with_tag 0 [1]` (buffer `[0,0,0,5, 0,1, 0,0, 1]`), `set_data [2,3]` splices
the recomputed 4-byte size field over only the first two bytes, producing the
12-byte buffer `[0,0,0,6, 0,5, 0,1, 0,0, 2,3]`: the total length is not
`8 + 2`, the size field (6) differs from `4 +` the length of the payload
region, and the version field now reads 5 instead of 1 — the layout is not
preserved. -/
theorem C2_set_data_size_field_bug :
    ConnectDatagram.with_tag 0 [1] = .ok ⟨[0, 0, 0, 5, 0, 1, 0, 0, 1]⟩ ∧
    ConnectDatagram.set_data ⟨[0, 0, 0, 5, 0, 1, 0, 0, 1]⟩ [2, 3] =
      .ok ([1], ⟨[0, 0, 0, 6, 0, 5, 0, 1, 0, 0, 2, 3]⟩) ∧
    (⟨[0, 0, 0, 6, 0, 5, 0, 1, 0, 0, 2, 3]⟩ : ConnectDatagram).serialized_size ≠
      8 + 2 ∧
    fromBE32 ((⟨[0, 0, 0, 6, 0, 5, 0, 1, 0, 0, 2, 3]⟩ :
        ConnectDatagram).buffer.take 4) ≠
      4 + (⟨[0, 0, 0, 6, 0, 5, 0, 1, 0, 0, 2, 3]⟩ : ConnectDatagram).data.length ∧
    (⟨[0, 0, 0, 6, 0, 5, 0, 1, 0, 0, 2, 3]⟩ : ConnectDatagram).version ≠ VERSION :=
  ⟨rfl, rfl, by decide, by decide, by decide⟩

/-- C3: the flush-atomicity claim fails on the code.  With one queued frame and
a transport whose flush succeeds, `poll_flush` moves the whole queue out via
`split_off(0)` BEFORE polling the vectored write, so when the write returns
would-block (or an error) the writer state has an empty `pending_writes` — the
frame buffers are gone and a later flush (third conjunct) performs no write at
all. -/
theorem C3_poll_flush_drops_queue_on_block :
    ConnectionWriter.poll_flush ⟨0, 1, [[0, 0, 0, 5, 0, 1, 0, 0, 7]], false⟩
      (.ready (.ok ())) .pending =
      (⟨0, 1, [], false⟩, .pending, [[0, 0, 0, 5, 0, 1, 0, 0, 7]]) ∧
    ConnectionWriter.poll_flush ⟨0, 1, [[0, 0, 0, 5, 0, 1, 0, 0, 7]], false⟩
      (.ready (.ok ())) (.ready (.error ())) =
      (⟨0, 1, [], false⟩, .ready (.error .mk), [[0, 0, 0, 5, 0, 1, 0, 0, 7]]) ∧
    ConnectionWriter.poll_flush ⟨0, 1, [], false⟩ (.ready (.ok ())) .pending =
      (⟨0, 1, [], false⟩, .ready (.ok ()), []) :=
  ⟨rfl, rfl, rfl⟩

/-- C4: codec round trip.  For every `u16` tag and payload of length 1 to
100,000,000, construction succeeds, the serialized form has length exactly
`8 + payload.length`, deserializing it returns an equal datagram, and the
fields read back as constructed. -/
theorem C4_codec_round_trip (tag : Nat) (payload : List Nat)
    (htag : tag < 65536) (h1 : 1 ≤ payload.length)
    (h2 : payload.length ≤ 100000000) :
    ∃ d, ConnectDatagram.with_tag tag payload = .ok d ∧
      d.into_bytes.length = 8 + payload.length ∧
      ConnectDatagram.from_bytes d.into_bytes = .ok d ∧
      d.version = VERSION ∧ d.tag = tag ∧ d.data = payload := by
  obtain ⟨d, hok⟩ : ∃ d, ConnectDatagram.with_tag tag payload = .ok d := by
    unfold ConnectDatagram.with_tag
    rw [if_neg (by omega), if_pos (by omega)]
    exact ⟨_, rfl⟩
  obtain ⟨hb, _, _⟩ := with_tag_ok tag payload d hok
  have hb' : d.buffer = u32be (4 + payload.length) ++
      (u16be VERSION ++ (u16be tag ++ payload)) := by
    rw [hb]
    simp [List.append_assoc]
  have hlen : d.buffer.length = 8 + payload.length := by
    simp only [hb', List.length_append, length_u32be, length_u16be]
    omega
  have hdrop4 : d.buffer.drop 4 = u16be VERSION ++ (u16be tag ++ payload) := by
    rw [hb', drop4_u32be]
  have hdrop6 : d.buffer.drop 6 = u16be tag ++ payload := by
    have h66 : (d.buffer.drop 4).drop 2 = d.buffer.drop 6 := by rw [List.drop_drop]
    rw [← h66, hdrop4, drop2_u16be]
  have hdrop8 : d.buffer.drop 8 = payload := by
    have h88 : (d.buffer.drop 6).drop 2 = d.buffer.drop 8 := by rw [List.drop_drop]
    rw [← h88, hdrop6, drop2_u16be]
  refine ⟨d, hok, hlen, ?_, ?_, ?_, hdrop8⟩
  · show ConnectDatagram.from_bytes d.buffer = .ok d
    unfold ConnectDatagram.from_bytes
    rw [if_pos (by rw [hdr_eq]; omega)]
  · show fromBE16 ((d.buffer.drop 4).take 2) = VERSION
    rw [hdrop4, take2_u16be]
    exact fromBE16_u16be VERSION (by norm_num [VERSION])
  · show fromBE16 ((d.buffer.drop 6).take 2) = tag
    rw [hdrop6, take2_u16be]
    exact fromBE16_u16be tag htag

/-- Witness for C4 at the spec's concrete scenario `tag = 1`,
`payload = [0,1,2,3,4]`. -/
theorem C4_witness :
    ∃ d, ConnectDatagram.with_tag 1 [0, 1, 2, 3, 4] = .ok d ∧
      d.into_bytes.length = 8 + 5 ∧
      ConnectDatagram.from_bytes d.into_bytes = .ok d ∧
      d.version = VERSION ∧ d.tag = 1 ∧ d.data = [0, 1, 2, 3, 4] :=
  C4_codec_round_trip 1 [0, 1, 2, 3, 4] (by decide) (by decide) (by decide)

/-- C5 counterexample: `Connection::close` does not flush pending frames or
close the transport's write side.  On a connection whose writer has a queued
frame, `close` returns the peer address with an empty transmission trace — the
queued frame is not among the bytes sent during close, refuting the claimed
"flushing any pending frames and closing the write side". -/
theorem C5_close_flushes_nothing :
    Connection.close ⟨initReader 0 7, ⟨0, 7, [[0, 0, 0, 5, 0, 1, 0, 0, 7]], false⟩⟩ =
      (7, []) ∧
    ([] : List (List Nat)) ≠ [[0, 0, 0, 5, 0, 1, 0, 0, 7]] :=
  ⟨rfl, by decide⟩

/-- C5 amended: `Connection::close` returns the peer address (taken from the
reader half) and merely drops both halves; no frame is transmitted and no
transport close is performed during it (the writer-close call is commented out
in the source). -/
theorem C5_close_returns_peer_addr (c : Connection) :
    Connection.close c = (c.reader.peer_addr, []) ∧
    (Connection.close c).1 = c.peer_addr :=
  ⟨rfl, rfl⟩

/-- C6 counterexample: a write submitted directly via `start_send` after the
writer was closed is NOT rejected — the serialized frame is appended to the
pending queue and `Ok` is returned. -/
theorem C6_start_send_after_close_accepts :
    ConnectionWriter.start_send ⟨0, 1, [], true⟩ (some [9, 9, 9]) =
      (⟨0, 1, [[9, 9, 9]], true⟩, .ok ()) := rfl

/-- C6 amended: `poll_ready` fails (with the connection-closed error) exactly
when the writer is closed, and succeeds otherwise; `start_send` itself performs
no closed check: whenever serialization succeeds it appends the frame and
returns `Ok`, even on a closed writer, so post-close writes are rejected only
through the `ready()` admission step of the sink protocol. -/
theorem C6_closed_writer_rejection (w : ConnectionWriter) (ser : List Nat) :
    (w.closed → w.poll_ready = .ready (.error .mk)) ∧
    (¬ w.closed → w.poll_ready = .ready (.ok ())) ∧
    w.start_send (some ser) =
      ({ w with pending_writes := w.pending_writes ++ [ser] }, .ok ()) := by
  refine ⟨?_, ?_, rfl⟩ <;> intro h <;> simp [ConnectionWriter.poll_ready, h]

/-- Witness for C6 on concrete closed and open writers. -/
theorem C6_witness :
    (⟨0, 1, [], true⟩ : ConnectionWriter).poll_ready = .ready (.error .mk) ∧
    (⟨0, 1, [], false⟩ : ConnectionWriter).poll_ready = .ready (.ok ()) :=
  ⟨(C6_closed_writer_rejection ⟨0, 1, [], true⟩ []).1 rfl,
    (C6_closed_writer_rejection ⟨0, 1, [], false⟩ []).2.1 (by decide)⟩

/-- C7 counterexample: after yielding a datagram the reader parses the next
size field only when at least `DATAGRAM_HEADER_BYTE_SIZE = 8` bytes remain, not
4 as claimed.  Here a 5-byte frame is extracted with a remainder of exactly 4
bytes (a complete size field): the claim requires `pending_frame_size` to be
set to 6 with the remainder consumed, but the code leaves the size unset and
the 4 bytes in place. -/
theorem C7_no_eager_parse_on_4_byte_remainder :
    extractNext [0, 1, 0, 7, 42, 0, 0, 0, 6] (some 5) =
      some ([0, 0, 0, 6], none, .ok ⟨[0, 0, 0, 5, 0, 1, 0, 7, 42]⟩) ∧
    4 ≤ ([0, 1, 0, 7, 42, 0, 0, 0, 6].drop 5).length :=
  ⟨rfl, by decide⟩

/-- C7 amended: when a datagram is yielded and the remainder holds at least 8
bytes (`DATAGRAM_HEADER_BYTE_SIZE`, not 4), the reader immediately parses the
next 4-byte size field from the remainder, removing those 4 bytes; with fewer
than 8 remaining bytes it leaves the remainder intact and no size parsed. -/
theorem C7_eager_pipelining_threshold (p : List Nat) (s : Nat) (hs : s ≤ p.length) :
    (8 ≤ (p.drop s).length →
      extractNext p (some s) =
        some ((p.drop s).drop 4, some (fromBE32 ((p.drop s).take 4)),
          ConnectDatagram.from_bytes_without_size (p.take s))) ∧
    ((p.drop s).length < 8 →
      extractNext p (some s) =
        some (p.drop s, none, ConnectDatagram.from_bytes_without_size (p.take s))) :=
  ⟨fun h8 => extractNext_big p s hs h8, fun h8 => extractNext_small p s hs h8⟩

/-- Witness for C7: a 5-byte frame followed by a 9-byte remainder triggers the
eager parse, leaving size 6 pending and the 4 size bytes consumed. -/
theorem C7_witness :
    extractNext [0, 1, 0, 7, 42, 0, 0, 0, 6, 0, 1, 0, 3, 8] (some 5) =
      some ([0, 1, 0, 3, 8], some 6, .ok ⟨[0, 0, 0, 5, 0, 1, 0, 7, 42]⟩) := by
  rw [(C7_eager_pipelining_threshold [0, 1, 0, 7, 42, 0, 0, 0, 6, 0, 1, 0, 3, 8] 5
    (by decide)).1 (by decide)]
  rfl

/-- C8: a fatal error from the underlying read closes the reader (buffers
released, closed flag set) and yields end-of-sequence; the error is never
surfaced as a distinct value — the outcome is identical to a clean EOF. -/
theorem C8_read_error_is_silent_eof (st : RState) :
    readStep st .rerr = (closeStream st, [], true) ∧
    readStep st .rerr = readStep st .eof ∧
    (closeStream st).closed = true ∧
    (closeStream st).pending = [] ∧
    (closeStream st).psize = none :=
  ⟨rfl, rfl, rfl, rfl, rfl⟩

/-- C10: a zero-byte read (EOF) while the reader still buffers bytes of a
partially received frame (nonempty pending bytes or a parsed pending size)
unconditionally closes the reader, discards those bytes, and yields
end-of-sequence without delivering or signalling the partial frame. -/
theorem C10_eof_discards_partial_frame (st : RState)
    (_h : st.pending ≠ [] ∨ st.psize ≠ none) :
    readStep st .eof = (closeStream st, [], true) ∧
    (closeStream st).pending = [] ∧
    (closeStream st).psize = none ∧
    (closeStream st).closed = true :=
  ⟨rfl, rfl, rfl, rfl⟩

/-- Witness for C10: EOF arriving with 6 buffered bytes of a 9-byte frame whose
size was already parsed. -/
theorem C10_witness :
    readStep ⟨0, 1, [0, 1, 0, 1, 10, 20], some 9, false⟩ ReadEvent.eof =
      (⟨0, 1, [], none, true⟩, [], true) :=
  (C10_eof_discards_partial_frame ⟨0, 1, [0, 1, 0, 1, 10, 20], some 9, false⟩
    (Or.inl (by decide))).1

/-- C9: construction and deserialization boundary conditions.  The empty
payload is rejected with the empty-message error, a 100,000,001-byte payload
with the too-large error, a payload of exactly 100,000,000 bytes is accepted;
`from_bytes` rejects every buffer of length at most 8 with
`InsufficientBytes` and accepts (verbatim) every longer buffer. -/
theorem C9_construction_boundaries :
    (∀ t : Nat, ConnectDatagram.with_tag t [] = .error .EmptyMessage) ∧
    (∀ t : Nat, ConnectDatagram.with_tag t (List.replicate 100000001 0) =
      .error .TooLargeMessage) ∧
    (∀ t : Nat, ∃ d,
      ConnectDatagram.with_tag t (List.replicate 100000000 0) = .ok d) ∧
    (∀ buf : List Nat, buf.length ≤ 8 →
      ConnectDatagram.from_bytes buf = .error .InsufficientBytes) ∧
    (∀ buf : List Nat, 8 < buf.length →
      ConnectDatagram.from_bytes buf = .ok ⟨buf⟩) := by
  refine ⟨fun t => rfl, fun t => ?_, fun t => ?_, fun buf h => ?_, fun buf h => ?_⟩
  · unfold ConnectDatagram.with_tag
    rw [if_pos]
    rw [List.length_replicate]
    norm_num
  · unfold ConnectDatagram.with_tag
    rw [if_neg (by rw [List.length_replicate]; norm_num),
      if_pos (by rw [List.length_replicate]; norm_num)]
    exact ⟨_, rfl⟩
  · unfold ConnectDatagram.from_bytes
    rw [if_neg]
    rw [hdr_eq]
    omega
  · unfold ConnectDatagram.from_bytes
    rw [if_pos]
    rw [hdr_eq]
    omega

/-- Witness for C9 at concrete tags and buffers (the giant-payload parts are
instantiated at `t = 3`; the decode parts at an 8-byte and a 9-byte buffer). -/
theorem C9_witness :
    ConnectDatagram.with_tag 3 [] = .error .EmptyMessage ∧
    ConnectDatagram.with_tag 3 (List.replicate 100000001 0) =
      .error .TooLargeMessage ∧
    (∃ d, ConnectDatagram.with_tag 3 (List.replicate 100000000 0) = .ok d) ∧
    ConnectDatagram.from_bytes [1, 2, 3, 4, 5, 6, 7, 8] =
      .error .InsufficientBytes ∧
    ConnectDatagram.from_bytes [0, 0, 0, 5, 0, 1, 0, 2, 7] =
      .ok ⟨[0, 0, 0, 5, 0, 1, 0, 2, 7]⟩ :=
  ⟨C9_construction_boundaries.1 3,
    C9_construction_boundaries.2.1 3,
    C9_construction_boundaries.2.2.1 3,
    C9_construction_boundaries.2.2.2.1 [1, 2, 3, 4, 5, 6, 7, 8] (by decide),
    C9_construction_boundaries.2.2.2.2 [0, 0, 0, 5, 0, 1, 0, 2, 7] (by decide)⟩
